import Mathlib

/-!
# Verification of the medication-tracking calendar (src/App.js)

Shallow embedding of the schedule resolver and daily-record synchronizer of
the single-page medication calendar.  Pure helpers (`formatDateForFirestore`,
`getLastTuesdayOfMonth`, `getFilteredMedications`, the grouping/sorting of
slots, `handleToggleMedication`) are translated directly; the Firestore
document store is modelled as a map from formatted date strings to documents,
with `setDoc`-with-merge and snapshot delivery made explicit.

JS `Date` values are modelled by their local calendar components
(year, 0-based month, 1-based day of month, plus time-of-day fields where the
claims need them).  `Date.prototype.getDay` (0 = Sunday .. 6 = Saturday) is
computed from a proleptic-Gregorian day number.
-/

namespace SeguimientoTiti

/-- A medication definition, as stored in the `medicationDefinitions`
document: `{ id, name, dosage, time, frequency }`, all strings. -/
structure Med where
  id : String
  name : String
  dosage : String
  time : String
  frequency : String
deriving DecidableEq, Repr

/-- The seeded default medication list (`defaultMedications` in src/App.js). -/
def defaultMedications : List Med := [
  ⟨"t4", "T4", "", "Ayunas", "Diario"⟩,
  ⟨"levecom-m", "Levecom", "500mg", "Mañana Post desayuno", "Diario"⟩,
  ⟨"deslefex", "Deslefex", "", "Mañana Post desayuno", "Diario"⟩,
  ⟨"lukast", "Lukast", "", "Mañana Post desayuno", "Diario"⟩,
  ⟨"hidrotisona-m", "Hidrotisona", "10mg", "Mañana Post desayuno", "Diario"⟩,
  ⟨"velsarten", "Velsarten", "160mg", "Mañana Post desayuno", "Diario"⟩,
  ⟨"amlodipino", "Amlodipino", "1/2 5mg", "Mañana Post desayuno", "Diario"⟩,
  ⟨"dexlansoprazol", "Dexlansoprazol", "", "Mañana Post desayuno", "Diario"⟩,
  ⟨"hidrotisona-ac", "Hidrotisona", "", "Antes de Comer 13hs", "Diario"⟩,
  ⟨"b12", "B12", "3 veces x semana sublingual", "Antes de Comer 13hs", "Martes, Jueves, Sábados"⟩,
  ⟨"hidrotisona-t", "Hidrotisona", "1/2 5mg", "Tarde 18hs", "Diario"⟩,
  ⟨"levecom-n", "Levecom", "", "Noche", "Diario"⟩,
  ⟨"novo-insomnum", "Novo Insomnum", "", "Noche", "Diario"⟩,
  ⟨"roovex", "Reorex", "10mg", "Noche", "Diario"⟩,
  ⟨"vitamina-d", "Vitamina D (Firesole/Apolar)", "1 vez al mes", "Mensual", "Último Martes del Mes"⟩,
  ⟨"miopropan", "Mipropan", "", "Según necesidad", "En caso de diarrea"⟩,
  ⟨"naproxeno", "Naproxeno", "", "Según necesidad", "En caso de dolor de cabeza"⟩]

/-! ## Calendar arithmetic (the JS `Date` behaviour the code relies on) -/

/-- Gregorian leap-year rule. -/
def isLeapYear (y : Nat) : Bool := (y % 4 == 0 && y % 100 != 0) || y % 400 == 0

/-- Number of days of month `m` (0-based, as in JS) of year `y`; this is what
`new Date(year, month + 1, 0).getDate()` returns. -/
def daysInMonth (y m : Nat) : Nat :=
  [31, if isLeapYear y then 29 else 28, 31, 30, 31, 30, 31, 31, 30, 31, 30, 31].getD m 31

/-- Days of year `y` strictly before month `m` (0-based). -/
def cumulativeDays (y : Nat) : Nat → Nat
  | 0 => 0
  | m + 1 => cumulativeDays y m + daysInMonth y m

/-- Leap years among years `1, ..., n`. -/
def leapYearsUpTo (n : Nat) : Nat := n / 4 - n / 100 + n / 400

/-- Proleptic-Gregorian day index: day `d` (1-based) of month `m` (0-based)
of year `y` (`y ≥ 1`), with `dayNumber 1 0 1 = 0` at Monday 1 Jan of year 1. -/
def dayNumber (y m d : Nat) : Nat :=
  365 * (y - 1) + leapYearsUpTo (y - 1) + cumulativeDays y m + (d - 1)

/-- Day of week of a day index: 0 = Sunday .. 6 = Saturday (JS `getDay`). -/
def dowOfDayNumber (n : Nat) : Nat := (n + 1) % 7

/-- JS `Date.prototype.getDay` for the local calendar date `(y, m, d)`. -/
def getDay (y m d : Nat) : Nat := dowOfDayNumber (dayNumber y m d)

/-- The backward scan of `getLastTuesdayOfMonth` (src/App.js:47-56): starting
at day `d` of month `(y, m)`, step back one day at a time until `getDay` is 2
(Tuesday).  Reaching day 0 corresponds to the (unreachable) underflow into the
previous month. -/
def scanBackForTuesday (y m : Nat) : Nat → Nat
  | 0 => 0
  | d + 1 => if getDay y m (d + 1) == 2 then d + 1 else scanBackForTuesday y m d

/-- `getLastTuesdayOfMonth` from src/App.js: scan backward from the last
calendar day of the month; returns the day of month of the last Tuesday. -/
def getLastTuesdayOfMonth (y m : Nat) : Nat :=
  scanBackForTuesday y m (daysInMonth y m)

/-- `getFilteredMedications` from src/App.js:262-283, evaluated at the local
calendar date `(y, m, d)`: the switch on `med.frequency`.  The
`'Último Martes del Mes'` branch compares `currentDate.toDateString()` with
the scanned date, which (both dates sharing year and month) is day-of-month
equality. -/
def getFilteredMedications (defs : List Med) (y m d : Nat) : List Med :=
  defs.filter fun med =>
    if med.frequency == "Diario" then true
    else if med.frequency == "Martes, Jueves, Sábados" then
      getDay y m d == 2 || getDay y m d == 4 || getDay y m d == 6
    else if med.frequency == "Último Martes del Mes" then
      d == getLastTuesdayOfMonth y m
    else if med.frequency == "Según necesidad" then false
    else true

/-! ## Grouping by time slot and the slot-key sort -/

/-- `groupedMedications` (src/App.js:288-294): the `reduce` that appends each
medication to the bucket of its `time` slot, creating the bucket on first
sight.  A JS object with non-numeric string keys enumerates its keys in
insertion order, so the association list keeps first-seen slot order. -/
def groupedMedications (meds : List Med) : List (String × List Med) :=
  meds.foldl (fun acc med =>
    if acc.any (fun p => p.1 == med.time) then
      acc.map (fun p => if p.1 == med.time then (p.1, p.2 ++ [med]) else p)
    else acc ++ [(med.time, [med])]) []

/-- `Object.keys(groupedMedications)`: the slot keys in first-seen order. -/
def groupKeys (meds : List Med) : List String :=
  (groupedMedications meds).map Prod.fst

/-- The fixed slot-priority list (`order` in src/App.js:434). -/
def slotOrderList : List String :=
  ["Ayunas", "Mañana Post desayuno", "Antes de Comer 13hs", "Tarde 18hs", "Noche", "Mensual"]

/-- JS `Array.prototype.indexOf`: index of the first occurrence, `-1` when
absent. -/
def jsIndexOf (l : List String) (s : String) : Int :=
  match l.findIdx? (· == s) with
  | some i => (i : Int)
  | none => -1

/-- The comparator `order.indexOf(a) - order.indexOf(b)` (src/App.js:435) is
consistent, so the (stable) JS sort orders keys by `jsIndexOf slotOrderList`;
this boolean `≤` on that key is the sort relation. -/
def slotLE (a b : String) : Bool :=
  jsIndexOf slotOrderList a ≤ jsIndexOf slotOrderList b

/-- The sorted slot keys displayed for the grouping
(`Object.keys(groupedMedications).sort(...)`, src/App.js:432-436), modelled
with a stable merge sort as JS `sort` is stable. -/
def sortedSlotKeys (meds : List Med) : List String :=
  (groupKeys meds).mergeSort slotLE

/-- The slot keys of the resolved grouping for the date `(y, m, d)`, in
display order. -/
def resolvedSlotKeys (defs : List Med) (y m d : Nat) : List String :=
  sortedSlotKeys (getFilteredMedications defs y m d)

/-! ## JSON values and the daily-record document model

The app stores each daily-record field as a JSON-serialized string
(`JSON.stringify` on write, `JSON.parse` on read).  `JSON.parse ∘
JSON.stringify` is the identity on the JSON data model, so documents are
modelled as holding the parsed `Json` value of each stored string. -/

/-- The JSON data model (objects keep field order, as JS objects do). -/
inductive Json where
  | str (s : String)
  | bool (b : Bool)
  | arr (xs : List Json)
  | obj (fields : List (String × Json))
deriving Repr

/-- A note entry `{ text, author, timestamp }` (src/App.js:202-206). -/
structure NoteEntry where
  text : String
  author : String
  timestamp : String
deriving DecidableEq, Repr

/-- A blood-pressure entry `{ systolic, diastolic, author, timestamp }`
(src/App.js:221-226). -/
structure BPEntry where
  systolic : String
  diastolic : String
  author : String
  timestamp : String
deriving DecidableEq, Repr

/-- The component's local daily-record state: the three `useState` slots
`medicationStatus` (a string-keyed object of booleans), `notes` and
`bloodPressure`. -/
structure LocalState where
  medicationStatus : List (String × Bool)
  notes : List NoteEntry
  bloodPressure : List BPEntry
deriving DecidableEq, Repr

/-- The three daily-record fields written by `updateDailyRecord`. -/
inductive FieldName where
  | medicationStatus
  | notes
  | bloodPressure
deriving DecidableEq, Repr

/-- The typed value persisted under each field. -/
def FieldVal : FieldName → Type
  | .medicationStatus => List (String × Bool)
  | .notes => List NoteEntry
  | .bloodPressure => List BPEntry

/-- JSON serialization of a medication-status object. -/
def encodeStatus (m : List (String × Bool)) : Json :=
  Json.obj (m.map fun p => (p.1, Json.bool p.2))

/-- JSON serialization of one note entry. -/
def encodeNote (n : NoteEntry) : Json :=
  Json.obj [("text", Json.str n.text), ("author", Json.str n.author),
            ("timestamp", Json.str n.timestamp)]

/-- JSON serialization of one blood-pressure entry. -/
def encodeBP (b : BPEntry) : Json :=
  Json.obj [("systolic", Json.str b.systolic), ("diastolic", Json.str b.diastolic),
            ("author", Json.str b.author), ("timestamp", Json.str b.timestamp)]

/-- `JSON.stringify` of a field value, seen at the JSON level. -/
def encodeField : (f : FieldName) → FieldVal f → Json
  | .medicationStatus, m => encodeStatus m
  | .notes, ns => Json.arr (ns.map encodeNote)
  | .bloodPressure, bs => Json.arr (bs.map encodeBP)

/-- Reading a parsed medication-status object back into a boolean map. -/
def decodeStatus : Json → List (String × Bool)
  | Json.obj fields => fields.filterMap fun p =>
      match p.2 with
      | Json.bool b => some (p.1, b)
      | _ => none
  | _ => []

/-- First field of a parsed JSON object with the given key, if any. -/
def jsonField (j : Json) (key : String) : Option Json :=
  match j with
  | Json.obj fields => (fields.find? (fun p => p.1 == key)).map Prod.snd
  | _ => none

/-- Reading one parsed note entry. -/
def decodeNote (j : Json) : Option NoteEntry :=
  match jsonField j "text", jsonField j "author", jsonField j "timestamp" with
  | some (Json.str t), some (Json.str a), some (Json.str ts) => some ⟨t, a, ts⟩
  | _, _, _ => none

/-- Reading one parsed blood-pressure entry. -/
def decodeBP (j : Json) : Option BPEntry :=
  match jsonField j "systolic", jsonField j "diastolic",
        jsonField j "author", jsonField j "timestamp" with
  | some (Json.str s), some (Json.str d), some (Json.str a), some (Json.str ts) =>
      some ⟨s, d, a, ts⟩
  | _, _, _, _ => none

/-- Reading a parsed notes array. -/
def decodeNotes : Json → List NoteEntry
  | Json.arr xs => xs.filterMap decodeNote
  | _ => []

/-- Reading a parsed blood-pressure array. -/
def decodeBPs : Json → List BPEntry
  | Json.arr xs => xs.filterMap decodeBP
  | _ => []

/-- `JSON.parse` of a stored field, typed. -/
def decodeField : (f : FieldName) → Json → FieldVal f
  | .medicationStatus, j => decodeStatus j
  | .notes, j => decodeNotes j
  | .bloodPressure, j => decodeBPs j

/-- A `dailyRecords/<date>` document: the three independently stored
serialized fields plus the record's own date string; a field a merge write
never touched is absent. -/
structure RemoteDoc where
  medicationStatus : Option Json := none
  notes : Option Json := none
  bloodPressure : Option Json := none
  date : Option String := none

/-- The stored serialized value of a field of a document. -/
def RemoteDoc.fieldJson (doc : RemoteDoc) : FieldName → Option Json
  | .medicationStatus => doc.medicationStatus
  | .notes => doc.notes
  | .bloodPressure => doc.bloodPressure

/-- Overwrite one field of a document (the single-field part of a merge
write). -/
def RemoteDoc.setField (doc : RemoteDoc) : FieldName → Json → RemoteDoc
  | .medicationStatus, j => { doc with medicationStatus := some j }
  | .notes, j => { doc with notes := some j }
  | .bloodPressure, j => { doc with bloodPressure := some j }

/-- The `dailyRecords` collection: formatted date string → document. -/
def Store : Type := String → Option RemoteDoc

/-- `updateDailyRecord` (src/App.js:173-186):
`setDoc(ref, { [field]: JSON.stringify(value), date: formattedDate },
{ merge: true })` — a merge write of the one serialized field plus the date
string into the document keyed by the formatted date. -/
def updateDailyRecord (store : Store) (formattedDate : String)
    (f : FieldName) (v : FieldVal f) : Store :=
  fun k =>
    if k = formattedDate then
      some ({ ((store formattedDate).getD {}).setField f (encodeField f v) with
              date := some formattedDate })
    else store k

/-- The `onSnapshot` callback (src/App.js:139-151): an existing document's
fields are parsed with `data.medicationStatus || '{}'` (resp. `'[]'`)
supplying the default for a missing field; a missing document yields the
empty defaults. -/
def snapshotState (doc : Option RemoteDoc) : LocalState :=
  match doc with
  | none => ⟨[], [], []⟩
  | some d =>
      ⟨decodeStatus (d.medicationStatus.getD (Json.obj [])),
       decodeNotes (d.notes.getD (Json.arr [])),
       decodeBPs (d.bloodPressure.getD (Json.arr []))⟩

/-- The typed local value of one field. -/
def LocalState.field (s : LocalState) : (f : FieldName) → FieldVal f
  | .medicationStatus => s.medicationStatus
  | .notes => s.notes
  | .bloodPressure => s.bloodPressure

/-! ## Date formatting and document addressing -/

/-- An in-memory JS `Date`, reduced to its local calendar components; the
time-of-day fields are carried to show the formatting ignores them. -/
structure JSDate where
  year : Nat
  month : Nat
  day : Nat
  hour : Nat := 0
  minute : Nat := 0
deriving DecidableEq, Repr

/-- JS `String.prototype.padStart(n, c)`. -/
def padStart (s : String) (n : Nat) (c : Char) : String :=
  String.mk (List.replicate (n - s.length) c) ++ s

/-- `formatDateForFirestore` (src/App.js:38-44): `YYYY-MM-DD` of the local
calendar day, month and day zero-padded to two digits. -/
def formatDateForFirestore (dt : JSDate) : String :=
  toString dt.year ++ "-" ++ padStart (toString (dt.month + 1)) 2 '0' ++ "-"
    ++ padStart (toString dt.day) 2 '0'

/-- The document path used for a daily record (src/App.js:136):
`artifacts/<appId>/public/data/dailyRecords/<formattedDate>`. -/
def dailyRecordDocPath (appId formattedDate : String) : String :=
  "artifacts/" ++ appId ++ "/public/data/dailyRecords/" ++ formattedDate

/-- Resolving the daily record of an in-memory `Date`: the store is consulted
only through `formatDateForFirestore` (src/App.js:135-136). -/
def resolveDailyRecord (store : Store) (dt : JSDate) : Option RemoteDoc :=
  store (formatDateForFirestore dt)

/-! ## Medication toggle -/

/-- JS property lookup `m[k]` on the medication-status object (modelled as an
association list in key-insertion order, keys unique). -/
def lookupStatus : List (String × Bool) → String → Option Bool
  | [], _ => none
  | p :: rest, k => if p.1 = k then some p.2 else lookupStatus rest k

/-- Whether the status object has the key (`k in m`). -/
def statusHasKey : List (String × Bool) → String → Bool
  | [], _ => false
  | p :: rest, k => if p.1 = k then true else statusHasKey rest k

/-- Replace the value stored under key `k`, keeping the key at its
position. -/
def overrideStatus (v : Bool) : List (String × Bool) → String → List (String × Bool)
  | [], _ => []
  | p :: rest, k =>
      if p.1 = k then (p.1, v) :: overrideStatus v rest k
      else p :: overrideStatus v rest k

/-- The new status object built by `handleToggleMedication`
(src/App.js:189-196): `{ ...medicationStatus, [medId]: !medicationStatus[medId] }`.
A spread overriding an existing key keeps the key at its position with the
new value; a fresh key is appended.  `!undefined` is `true`, `!b` negates a
boolean. -/
def handleToggleMedication (m : List (String × Bool)) (medId : String) :
    List (String × Bool) :=
  let newVal := !((lookupStatus m medId).getD false)
  if statusHasKey m medId then overrideStatus newVal m medId
  else m ++ [(medId, newVal)]

/-! ## Subscription lifecycle (the daily-records `useEffect`)

The effect at src/App.js:132-162 opens one `onSnapshot` subscription for the
active date and returns a cleanup that unsubscribes it.  React runs the
cleanup of the previous effect before the effect re-runs on a date change, and
Firestore never invokes a callback after its `unsubscribe()` returns; so at
every instant at most the one subscription opened for the current active date
can deliver.  `deliver`'s guard (`subId` must be the live subscription) is the
embedding of that contract: delivery on any torn-down subscription id is a
no-op. -/

/-- Lifecycle state: the live subscription (its id and the date it was opened
for), a fresh-id counter, the ids already torn down, and the mirrored local
daily-record state. -/
structure SyncState where
  activeSubId : Nat
  activeSubDate : String
  nextId : Nat
  closed : List Nat
  localData : LocalState

/-- A date change: the effect cleanup unsubscribes the live subscription
(src/App.js:158-161), then the re-run opens a fresh one for the new date
(src/App.js:139). -/
def switchDate (s : SyncState) (newDate : String) : SyncState :=
  { activeSubId := s.nextId
    activeSubDate := newDate
    nextId := s.nextId + 1
    closed := s.activeSubId :: s.closed
    localData := s.localData }

/-- A snapshot delivery attempt by subscription `subId`: only the live
subscription can fire (Firestore delivers nothing after `unsubscribe()`); its
callback replaces the three local fields from the snapshot
(src/App.js:139-151). -/
def deliver (s : SyncState) (subId : Nat) (doc : Option RemoteDoc) : SyncState :=
  if subId = s.activeSubId then { s with localData := snapshotState doc } else s

/-! ## Write-failure outcome of a toggle -/

/-- Result of the awaited `setDoc` inside `updateDailyRecord`. -/
inductive WriteResult where
  | ok
  | err
deriving DecidableEq, Repr

/-- Observable outcome of one `handleToggleMedication` call together with its
`updateDailyRecord` write. -/
structure ToggleOutcome where
  localStatus : List (String × Bool)
  store : Store
  consoleErrorLogged : Bool
  userNoticeShown : Bool
  exceptionPropagated : Bool
  retried : Bool

/-- `handleToggleMedication` (src/App.js:189-196) with the write result made
explicit: the local state is set optimistically before the write; on failure
the `catch` at src/App.js:183-185 only calls `console.error` — it sets no
user-visible state, does not rethrow (and the caller does not await the
promise), and nothing retries; the optimistic state is left in place. -/
def runToggle (store : Store) (formattedDate : String)
    (m : List (String × Bool)) (medId : String) (r : WriteResult) : ToggleOutcome :=
  let newStatus := handleToggleMedication m medId
  match r with
  | .ok =>
      { localStatus := newStatus
        store := updateDailyRecord store formattedDate .medicationStatus newStatus
        consoleErrorLogged := false
        userNoticeShown := false
        exceptionPropagated := false
        retried := false }
  | .err =>
      { localStatus := newStatus
        store := store
        consoleErrorLogged := true
        userNoticeShown := false
        exceptionPropagated := false
        retried := false }

/-! ## Auxiliary definitions used by the proofs -/

/-- Day index of the day before the 1st of month `(y, m)`; `getDay y m d` is
`(monthBase y m + d) % 7` for `d ≥ 1`. -/
def monthBase (y m : Nat) : Nat :=
  365 * (y - 1) + leapYearsUpTo (y - 1) + cumulativeDays y m

/-- The backward Tuesday scan with the month collapsed to its base day
index. -/
def scanTueAux (b : Nat) : Nat → Nat
  | 0 => 0
  | d + 1 => if (b + (d + 1)) % 7 == 2 then d + 1 else scanTueAux b d

/-- The empty default of each daily-record field. -/
def emptyFieldVal : (f : FieldName) → FieldVal f
  | .medicationStatus => []
  | .notes => []
  | .bloodPressure => []

/-- A medication in a slot outside the priority list (for the slot-sort
counterexample). -/
def cexMedCustomSlot : Med := ⟨"a", "A", "", "Custom", "Diario"⟩

/-- A medication in the first listed slot (for the slot-sort
counterexample). -/
def cexMedAyunas : Med := ⟨"b", "B", "", "Ayunas", "Diario"⟩

end SeguimientoTiti

namespace SeguimientoTiti

/-! ## Calendar lemmas -/

theorem getDay_eq_monthBase (y m d : Nat) (hd : 1 ≤ d) :
    getDay y m d = (monthBase y m + d) % 7 := by
  unfold getDay dowOfDayNumber dayNumber monthBase
  congr 1
  omega

theorem scanBack_eq_aux (y m : Nat) :
    ∀ d, scanBackForTuesday y m d = scanTueAux (monthBase y m) d := by
  intro d
  induction d with
  | zero => rfl
  | succ d ih =>
    unfold scanBackForTuesday scanTueAux
    rw [getDay_eq_monthBase y m (d + 1) (by omega), ih]

theorem scanTueAux_mod (b : Nat) : ∀ d, scanTueAux b d = scanTueAux (b % 7) d := by
  intro d
  induction d with
  | zero => rfl
  | succ d ih =>
    unfold scanTueAux
    rw [Nat.mod_add_mod, ih]

theorem scanTueAux_master : ∀ b < 7, ∀ L, 28 ≤ L → L ≤ 31 →
    1 ≤ scanTueAux b L ∧ scanTueAux b L ≤ L ∧ (b + scanTueAux b L) % 7 = 2 ∧
    ∀ d' < 32, scanTueAux b L < d' → d' ≤ L → (b + d') % 7 ≠ 2 := by
  decide

theorem daysInMonth_bounds (y m : Nat) :
    28 ≤ daysInMonth y m ∧ daysInMonth y m ≤ 31 := by
  unfold daysInMonth
  cases h : isLeapYear y <;>
    rcases m with _ | _ | _ | _ | _ | _ | _ | _ | _ | _ | _ | _ | m <;> simp [List.getD]

theorem getLastTuesdayOfMonth_props (y m : Nat) :
    1 ≤ getLastTuesdayOfMonth y m ∧ getLastTuesdayOfMonth y m ≤ daysInMonth y m ∧
    getDay y m (getLastTuesdayOfMonth y m) = 2 ∧
    ∀ d', getLastTuesdayOfMonth y m < d' → d' ≤ daysInMonth y m → getDay y m d' ≠ 2 := by
  have hbd := daysInMonth_bounds y m
  have hb : monthBase y m % 7 < 7 := Nat.mod_lt _ (by omega)
  have master := scanTueAux_master (monthBase y m % 7) hb (daysInMonth y m) hbd.1 hbd.2
  have heq : getLastTuesdayOfMonth y m = scanTueAux (monthBase y m % 7) (daysInMonth y m) := by
    rw [getLastTuesdayOfMonth, scanBack_eq_aux, scanTueAux_mod]
  obtain ⟨h1, h2, h3, h4⟩ := master
  refine ⟨by omega, by omega, ?_, ?_⟩
  · rw [heq, getDay_eq_monthBase _ _ _ (by omega), ← Nat.mod_add_mod]
    exact h3
  · intro d' hlt hle
    rw [heq] at hlt
    rw [getDay_eq_monthBase _ _ _ (by omega), ← Nat.mod_add_mod]
    exact h4 d' (by omega) hlt hle

theorem mjs_window_count (n : Nat) :
    ((List.range 7).countP (fun i =>
      dowOfDayNumber (n + i) == 2 || dowOfDayNumber (n + i) == 4 ||
        dowOfDayNumber (n + i) == 6)) = 3 := by
  have key : ∀ i : Nat, dowOfDayNumber (n + i) = dowOfDayNumber (n % 7 + i) := by
    intro i
    simp only [dowOfDayNumber, Nat.add_assoc]
    exact (Nat.mod_add_mod n 7 (i + 1)).symm
  rw [List.countP_congr (fun i _ => by rw [key i])]
  have hr : n % 7 < 7 := Nat.mod_lt _ (by omega)
  generalize n % 7 = r at hr ⊢
  interval_cases r <;> decide

/-! ## Claim C4: the last-Tuesday-of-month rule -/

/-- C4: a definition with frequencyRule "Último Martes del Mes" is included in
the resolved schedule for a date iff the date is the last Tuesday of its
month, computed by scanning backward from the last calendar day of the month;
that day is a Tuesday, no later day of the month is a Tuesday, and exactly one
day of the month is included. -/
theorem c4_last_tuesday_rule (defs : List Med) (y m d : Nat) (med : Med)
    (hfreq : med.frequency = "Último Martes del Mes") :
    (med ∈ getFilteredMedications defs y m d ↔
      med ∈ defs ∧ d = getLastTuesdayOfMonth y m) ∧
    getDay y m (getLastTuesdayOfMonth y m) = 2 ∧
    (∀ d', getLastTuesdayOfMonth y m < d' → d' ≤ daysInMonth y m → getDay y m d' ≠ 2) ∧
    (∃! d', (1 ≤ d' ∧ d' ≤ daysInMonth y m) ∧ d' = getLastTuesdayOfMonth y m) := by
  have hp := getLastTuesdayOfMonth_props y m
  refine ⟨?_, hp.2.2.1, hp.2.2.2, ?_⟩
  · simp [getFilteredMedications, List.mem_filter, hfreq]
  · exact ⟨getLastTuesdayOfMonth y m, ⟨⟨hp.1, hp.2.1⟩, rfl⟩, fun d' h => h.2⟩

/-- Witness for C4 at a concrete input: the monthly medication is scheduled on
2024-03-26, the last Tuesday of March 2024. -/
theorem c4_last_tuesday_rule_witness :
    (⟨"vitamina-d", "Vitamina D (Firesole/Apolar)", "1 vez al mes", "Mensual",
      "Último Martes del Mes"⟩ : Med) ∈
      getFilteredMedications [⟨"vitamina-d", "Vitamina D (Firesole/Apolar)",
        "1 vez al mes", "Mensual", "Último Martes del Mes"⟩] 2024 2 26 :=
  (c4_last_tuesday_rule _ 2024 2 26 _ rfl).1.mpr ⟨by decide, by decide⟩

/-! ## Claim C5: permissive default and "Según necesidad" -/

/-- C5: a definition whose frequencyRule is none of the four recognized values
is included in the resolved schedule for every date (permissive default),
while a definition with frequencyRule "Según necesidad" is never included. -/
theorem c5_default_and_as_needed (defs : List Med) (y m d : Nat) (med : Med) :
    (med ∈ defs →
      med.frequency ∉ ["Diario", "Martes, Jueves, Sábados",
        "Último Martes del Mes", "Según necesidad"] →
      med ∈ getFilteredMedications defs y m d) ∧
    (med.frequency = "Según necesidad" → med ∉ getFilteredMedications defs y m d) := by
  constructor
  · intro hmem hnr
    simp only [List.mem_cons, List.not_mem_nil, or_false, not_or] at hnr
    obtain ⟨h1, h2, h3, h4⟩ := hnr
    simp [getFilteredMedications, List.mem_filter, h1, h2, h3, h4, hmem]
  · intro hfreq
    simp [getFilteredMedications, List.mem_filter, hfreq]

/-- Witness for C5 at a concrete input: the unrecognized frequency
"En caso de diarrea" is scheduled on 2024-03-05, and a definition with
frequency "Según necesidad" is not. -/
theorem c5_default_and_as_needed_witness :
    (⟨"miopropan", "Mipropan", "", "Según necesidad", "En caso de diarrea"⟩ : Med) ∈
      getFilteredMedications defaultMedications 2024 2 5 ∧
    (⟨"x", "X", "", "Noche", "Según necesidad"⟩ : Med) ∉
      getFilteredMedications [⟨"x", "X", "", "Noche", "Según necesidad"⟩] 2024 2 5 :=
  ⟨(c5_default_and_as_needed defaultMedications 2024 2 5 _).1 (by decide) (by decide),
   (c5_default_and_as_needed _ 2024 2 5 _).2 rfl⟩

/-! ## Claim C6: the Tuesday/Thursday/Saturday rule -/

/-- C6: a definition with frequencyRule "Martes, Jueves, Sábados" is included
in the resolved schedule for a date iff the weekday is Tuesday, Thursday or
Saturday; over any 7 consecutive day indices exactly 3 satisfy the weekday
predicate. -/
theorem c6_tue_thu_sat_rule (defs : List Med) (y m d : Nat) (med : Med)
    (hfreq : med.frequency = "Martes, Jueves, Sábados") :
    (med ∈ getFilteredMedications defs y m d ↔
      med ∈ defs ∧ (getDay y m d = 2 ∨ getDay y m d = 4 ∨ getDay y m d = 6)) ∧
    ∀ n : Nat, ((List.range 7).countP (fun i =>
      dowOfDayNumber (n + i) == 2 || dowOfDayNumber (n + i) == 4 ||
        dowOfDayNumber (n + i) == 6)) = 3 := by
  refine ⟨?_, mjs_window_count⟩
  simp [getFilteredMedications, List.mem_filter, hfreq, or_assoc]

/-- Witness for C6 at a concrete input: B12 is scheduled on 2024-03-05, a
Tuesday. -/
theorem c6_tue_thu_sat_rule_witness :
    (⟨"b12", "B12", "3 veces x semana sublingual", "Antes de Comer 13hs",
      "Martes, Jueves, Sábados"⟩ : Med) ∈
      getFilteredMedications defaultMedications 2024 2 5 :=
  (c6_tue_thu_sat_rule defaultMedications 2024 2 5 _ rfl).1.mpr
    ⟨by decide, Or.inl (by decide)⟩

/-! ## Claim C1: the slot-key display order (corrected)

The comparator at src/App.js:435 is `order.indexOf(a) - order.indexOf(b)`;
`indexOf` returns `-1` for a slot not in the priority list, so an unlisted
slot key compares as smaller than every listed key and sorts BEFORE all
listed slots, not after them. -/

theorem slotLE_trans : ∀ a b c : String, slotLE a b → slotLE b c → slotLE a c := by
  intro a b c
  simp only [slotLE, decide_eq_true_eq]
  omega

theorem slotLE_total : ∀ a b : String, slotLE a b || slotLE b a := by
  intro a b
  simp only [slotLE, Bool.or_eq_true, decide_eq_true_eq]
  omega

theorem sortedSlotKeys_unlisted_stable (meds : List Med) :
    (sortedSlotKeys meds).filter (fun s => jsIndexOf slotOrderList s == -1) =
      (groupKeys meds).filter (fun s => jsIndexOf slotOrderList s == -1) := by
  set p : String → Bool := fun s => jsIndexOf slotOrderList s == -1 with hp
  set l := groupKeys meds with hl
  have hc : ((l.filter p).Pairwise fun a b => slotLE a b = true) := by
    apply List.pairwise_of_forall_mem_list
    intro a ha b hb
    have ha' := (List.mem_filter.mp ha).2
    have hb' := (List.mem_filter.mp hb).2
    simp only [hp, beq_iff_eq] at ha' hb'
    simp only [slotLE, ha', hb', decide_eq_true_eq, le_refl]
  have h1 : List.Sublist (l.filter p) (l.mergeSort slotLE) :=
    List.sublist_mergeSort slotLE_trans slotLE_total hc (List.filter_sublist l)
  have h2 : List.Sublist ((l.filter p).filter p) ((l.mergeSort slotLE).filter p) :=
    h1.filter p
  rw [List.filter_filter] at h2
  have h2' : List.Sublist (l.filter p) ((l.mergeSort slotLE).filter p) := by
    simpa using h2
  have h3 : List.Perm ((l.mergeSort slotLE).filter p) (l.filter p) :=
    (List.mergeSort_perm l slotLE).filter p
  exact (h2'.eq_of_length h3.length_eq.symm).symm

/-- Counterexample to C1 as stated: on 2024-03-05 the resolved grouping of a
definition list with slots [Custom, Ayunas] puts the slot "Custom" — which is
not in the priority list — BEFORE the listed slot "Ayunas", because
`indexOf` gives unlisted slots the key `-1`; the claim says unlisted slots
sort after all listed slots. -/
theorem c1_slot_sort_counterexample :
    resolvedSlotKeys [cexMedCustomSlot, cexMedAyunas] 2024 2 5 = ["Custom", "Ayunas"] ∧
    "Custom" ∉ slotOrderList ∧ "Ayunas" ∈ slotOrderList := by
  refine ⟨?_, by decide, by decide⟩
  show sortedSlotKeys _ = _
  unfold sortedSlotKeys
  have h : groupKeys (getFilteredMedications [cexMedCustomSlot, cexMedAyunas] 2024 2 5) =
      ["Custom", "Ayunas"] := by decide
  rw [h]
  exact List.mergeSort_of_sorted (by decide)

/-- C1 as amended: in the resolved grouping for a date, the slot keys are
stably sorted by their `indexOf` key in the fixed priority list [Ayunas,
Mañana Post desayuno, Antes de Comer 13hs, Tarde 18hs, Noche, Mensual], where
a slot not in the list has key `-1`: listed slots appear in priority order,
every slot key not in the list sorts BEFORE all listed slots, the sorted keys
are a permutation of the first-seen slot keys, and the unlisted slots keep
their first-seen relative order. -/
theorem c1_slot_sort_amended (defs : List Med) (y m d : Nat) :
    ((resolvedSlotKeys defs y m d).Pairwise fun a b =>
      jsIndexOf slotOrderList a ≤ jsIndexOf slotOrderList b) ∧
    (resolvedSlotKeys defs y m d).Perm (groupKeys (getFilteredMedications defs y m d)) ∧
    (resolvedSlotKeys defs y m d).filter (fun s => jsIndexOf slotOrderList s == -1) =
      (groupKeys (getFilteredMedications defs y m d)).filter
        (fun s => jsIndexOf slotOrderList s == -1) := by
  refine ⟨?_, ?_, sortedSlotKeys_unlisted_stable _⟩
  · have h := List.sorted_mergeSort slotLE_trans slotLE_total
      (groupKeys (getFilteredMedications defs y m d))
    exact h.imp (fun hab => by simpa [slotLE] using hab)
  · exact List.mergeSort_perm _ _

/-! ## Serialization round-trip lemmas -/

theorem decodeStatus_encodeStatus (m : List (String × Bool)) :
    decodeStatus (encodeStatus m) = m := by
  induction m with
  | nil => rfl
  | cons p rest ih =>
    simp only [encodeStatus, List.map_cons, decodeStatus, List.filterMap_cons] at ih ⊢
    simpa using ih

theorem decodeNote_encodeNote (n : NoteEntry) : decodeNote (encodeNote n) = some n := rfl

theorem decodeBP_encodeBP (b : BPEntry) : decodeBP (encodeBP b) = some b := rfl

theorem decodeNotes_encode (ns : List NoteEntry) :
    decodeNotes (Json.arr (ns.map encodeNote)) = ns := by
  induction ns with
  | nil => rfl
  | cons n rest ih =>
    simp only [List.map_cons, decodeNotes, List.filterMap_cons, decodeNote_encodeNote] at ih ⊢
    simpa [decodeNotes] using ih

theorem decodeBPs_encode (bs : List BPEntry) :
    decodeBPs (Json.arr (bs.map encodeBP)) = bs := by
  induction bs with
  | nil => rfl
  | cons b rest ih =>
    simp only [List.map_cons, decodeBPs, List.filterMap_cons, decodeBP_encodeBP] at ih ⊢
    simpa [decodeBPs] using ih

theorem decodeField_encodeField (f : FieldName) (v : FieldVal f) :
    decodeField f (encodeField f v) = v := by
  cases f
  · exact decodeStatus_encodeStatus v
  · exact decodeNotes_encode v
  · exact decodeBPs_encode v

theorem snapshot_field_eq (doc : RemoteDoc) (f : FieldName) :
    (snapshotState (some doc)).field f =
      decodeField f ((doc.fieldJson f).getD (match f with
        | .medicationStatus => Json.obj []
        | _ => Json.arr [])) := by
  cases f <;> rfl

/-! ## Claim C3: patch writes one field with merge semantics -/

/-- C3: `patch(d, f, v)` (that is, `updateDailyRecord`) writes exactly the
serialized value of field `f` plus the record's date string into the document
keyed by `d`, with merge semantics: the other two daily-record fields of that
document, and every document of another date, are unchanged; and the snapshot
of the updated document reflects the written value. -/
theorem c3_patch_merge_roundtrip (store : Store) (fd : String)
    (f : FieldName) (v : FieldVal f) :
    (∃ doc', updateDailyRecord store fd f v fd = some doc' ∧
      doc'.fieldJson f = some (encodeField f v) ∧
      doc'.date = some fd ∧
      ∀ g : FieldName, g ≠ f → doc'.fieldJson g = ((store fd).getD {}).fieldJson g) ∧
    (∀ k, k ≠ fd → updateDailyRecord store fd f v k = store k) ∧
    (snapshotState (updateDailyRecord store fd f v fd)).field f = v := by
  refine ⟨⟨{ ((store fd).getD {}).setField f (encodeField f v) with date := some fd },
    ?_, ?_, ?_, ?_⟩, ?_, ?_⟩
  · simp [updateDailyRecord]
  · cases f <;> rfl
  · rfl
  · intro g hg
    cases f <;> cases g <;> first | exact absurd rfl hg | rfl
  · intro k hk
    simp [updateDailyRecord, hk]
  · have h : updateDailyRecord store fd f v fd =
        some ({ ((store fd).getD {}).setField f (encodeField f v) with date := some fd }) := by
      simp [updateDailyRecord]
    rw [h, snapshot_field_eq]
    have hfj : ({ ((store fd).getD {}).setField f (encodeField f v) with
        date := some fd } : RemoteDoc).fieldJson f = some (encodeField f v) := by
      cases f <;> rfl
    rw [hfj]
    exact decodeField_encodeField f v

/-- Witness for C3 at a concrete input: writing `{id1: true}` as the
medication status of 2024-03-05 into the empty store yields a snapshot whose
status is `{id1: true}`, and leaves the document of 2024-03-04 absent. -/
theorem c3_patch_merge_roundtrip_witness :
    (snapshotState (updateDailyRecord (fun _ => none) "2024-03-05"
      .medicationStatus [("id1", true)] "2024-03-05")).field .medicationStatus =
      [("id1", true)] ∧
    updateDailyRecord (fun _ => none) "2024-03-05"
      .medicationStatus [("id1", true)] "2024-03-04" = none := by
  have h := c3_patch_merge_roundtrip (fun _ => none) "2024-03-05"
    .medicationStatus [("id1", true)]
  exact ⟨h.2.2, h.2.1 "2024-03-04" (by decide)⟩

/-! ## Claim C7: empty defaults on missing document or field -/

/-- C7: observing a date with no remote document yields the empty defaults
(empty status mapping, no notes, no blood-pressure readings); when a document
exists, each of the three fields independently defaults to empty when the
field is missing, and the loaded value of each field depends only on that
field of the document. -/
theorem c7_missing_defaults :
    snapshotState none = ⟨[], [], []⟩ ∧
    (∀ doc : RemoteDoc, ∀ f : FieldName, doc.fieldJson f = none →
      (snapshotState (some doc)).field f = emptyFieldVal f) ∧
    (∀ doc1 doc2 : RemoteDoc, ∀ f : FieldName, doc1.fieldJson f = doc2.fieldJson f →
      (snapshotState (some doc1)).field f = (snapshotState (some doc2)).field f) := by
  refine ⟨rfl, ?_, ?_⟩
  · intro doc f h
    rw [snapshot_field_eq, h]
    cases f <;> rfl
  · intro doc1 doc2 f h
    rw [snapshot_field_eq, snapshot_field_eq, h]

/-- Witness for C7 at a concrete input: a document holding only a medication
status loads empty notes, and the missing document loads all three
defaults. -/
theorem c7_missing_defaults_witness :
    snapshotState none = ⟨[], [], []⟩ ∧
    (snapshotState (some ⟨some (encodeStatus [("id1", true)]), none, none, none⟩)).field
      FieldName.notes = emptyFieldVal FieldName.notes :=
  ⟨c7_missing_defaults.1,
   c7_missing_defaults.2.1 ⟨some (encodeStatus [("id1", true)]), none, none, none⟩
     FieldName.notes rfl⟩

/-! ## Claim C2: stale subscriptions never reach the local state -/

/-- C2: switching the active date from `d1` to `d2` tears the `d1`
subscription down (its id joins the closed set) and, as long as the `d2`
subscription is the live one, a snapshot delivery attempt on the `d1`
subscription id leaves the state — in particular the local daily-record
state — unchanged.  The hypothesis says the live subscription id predates the
fresh-id counter, which `switchDate` maintains. -/
theorem c2_stale_subscription_never_applied (s : SyncState) (d2 : String)
    (doc : Option RemoteDoc) (hfresh : s.activeSubId < s.nextId) :
    s.activeSubId ∈ (switchDate s d2).closed ∧
    (switchDate s d2).activeSubDate = d2 ∧
    ∀ t : SyncState, t.activeSubId = (switchDate s d2).activeSubId →
      deliver t s.activeSubId doc = t := by
  refine ⟨List.mem_cons_self _ _, rfl, ?_⟩
  intro t ht
  unfold deliver
  rw [ht]
  simp only [switchDate]
  rw [if_neg (by omega)]

/-- Witness for C2 at a concrete input: after switching from 2024-03-05
(subscription 0) to 2024-03-06, subscription 0 is closed and a delivery on it
changes nothing. -/
theorem c2_stale_subscription_never_applied_witness :
    (0 : Nat) ∈ (switchDate ⟨0, "2024-03-05", 1, [], ⟨[], [], []⟩⟩ "2024-03-06").closed ∧
    deliver (switchDate ⟨0, "2024-03-05", 1, [], ⟨[], [], []⟩⟩ "2024-03-06") 0 none =
      switchDate ⟨0, "2024-03-05", 1, [], ⟨[], [], []⟩⟩ "2024-03-06" := by
  have h := c2_stale_subscription_never_applied
    ⟨0, "2024-03-05", 1, [], ⟨[], [], []⟩⟩ "2024-03-06" none (by decide)
  exact ⟨h.1, h.2.2 _ rfl⟩

/-! ## Claim C8: write failure handling (corrected)

The `catch` of `updateDailyRecord` (src/App.js:183-185) only calls
`console.error`; no state that would show a user-facing notice is set on this
path, so the "shown as a transient user-facing notice" part of the claim does
not hold. -/

/-- Counterexample to C8 as stated: at a concrete failing write triggered by
a medication toggle, no user-facing notice is shown (the claim says the error
is shown as a transient user-facing notice). -/
theorem c8_write_failure_counterexample :
    (runToggle (fun _ => none) "2024-03-05" [] "t4" .err).userNoticeShown = false := rfl

/-- C8 as amended: when a remote write of a daily-record field fails, the
error is logged to the console but NOT shown to the user, the operation is
not retried, no exception propagates to the caller, the optimistic local
state from the toggle is not rolled back, and the remote store is
unchanged. -/
theorem c8_write_failure_amended (store : Store) (fd : String)
    (m : List (String × Bool)) (medId : String) :
    (runToggle store fd m medId .err).consoleErrorLogged = true ∧
    (runToggle store fd m medId .err).userNoticeShown = false ∧
    (runToggle store fd m medId .err).retried = false ∧
    (runToggle store fd m medId .err).exceptionPropagated = false ∧
    (runToggle store fd m medId .err).localStatus = handleToggleMedication m medId ∧
    (runToggle store fd m medId .err).store = store :=
  ⟨rfl, rfl, rfl, rfl, rfl, rfl⟩

/-! ## Claim C9: daily records are addressed solely by the formatted date -/

/-- C9: two in-memory Date values that format to the same `YYYY-MM-DD` string
produce the same document path and resolve to the same daily record, for every
store: a daily record is addressed solely by the formatted date string. -/
theorem c9_date_addressing (appId : String) (store : Store) (d1 d2 : JSDate)
    (h : formatDateForFirestore d1 = formatDateForFirestore d2) :
    dailyRecordDocPath appId (formatDateForFirestore d1) =
      dailyRecordDocPath appId (formatDateForFirestore d2) ∧
    resolveDailyRecord store d1 = resolveDailyRecord store d2 := by
  unfold dailyRecordDocPath resolveDailyRecord
  rw [h]
  exact ⟨rfl, rfl⟩

/-- Witness for C9 at a concrete input: two Date values of 2024-03-05 with
different times of day resolve to the same daily record. -/
theorem c9_date_addressing_witness :
    resolveDailyRecord (fun k => if k = "2024-03-05" then
        some { date := some "2024-03-05" } else none) ⟨2024, 2, 5, 10, 0⟩ =
      resolveDailyRecord (fun k => if k = "2024-03-05" then
        some { date := some "2024-03-05" } else none) ⟨2024, 2, 5, 23, 59⟩ :=
  (c9_date_addressing "app" _ ⟨2024, 2, 5, 10, 0⟩ ⟨2024, 2, 5, 23, 59⟩ rfl).2

/-! ## Claim C10: toggling is key-local and self-inverse up to defaults -/

theorem lookup_override (v : Bool) (m : List (String × Bool)) (k y : String) :
    lookupStatus (overrideStatus v m k) y =
      if y = k then (if statusHasKey m k then some v else none) else lookupStatus m y := by
  induction m with
  | nil => simp [overrideStatus, lookupStatus, statusHasKey]
  | cons p rest ih =>
    simp only [overrideStatus, lookupStatus, statusHasKey]
    split_ifs with h1 h2 h3 <;> simp_all [lookupStatus]

theorem lookup_append (m l : List (String × Bool)) (y : String) :
    lookupStatus (m ++ l) y = (lookupStatus m y).or (lookupStatus l y) := by
  induction m with
  | nil => simp [lookupStatus]
  | cons p rest ih =>
    simp only [List.cons_append, lookupStatus]
    split_ifs <;> simp [ih]

theorem lookup_of_hasKey_false (m : List (String × Bool)) (k : String)
    (h : statusHasKey m k = false) : lookupStatus m k = none := by
  induction m with
  | nil => rfl
  | cons p rest ih =>
    simp only [statusHasKey] at h
    simp only [lookupStatus]
    split_ifs with h1
    · simp [h1] at h
    · exact ih (by simpa [h1] using h)

theorem lookupStatus_toggle (m : List (String × Bool)) (x y : String) :
    lookupStatus (handleToggleMedication m x) y =
      if y = x then some (!((lookupStatus m x).getD false)) else lookupStatus m y := by
  unfold handleToggleMedication
  by_cases hk : statusHasKey m x
  · simp only [hk, if_true, lookup_override, lookupStatus]
  · simp only [hk, Bool.false_eq_true, if_false, lookup_append, lookupStatus]
    by_cases hyx : y = x
    · subst hyx
      simp [lookup_of_hasKey_false m y (Bool.not_eq_true _ ▸ hk)]
    · simp [hyx, Ne.symm hyx]

/-- C10: toggling id `x` binds `x` to the negation of its current value (an
absent key counts as false, so toggling an absent id binds it to true),
leaves every other id unchanged, and toggling the same id twice agrees with
the original mapping at every id under absent-means-false semantics, with `x`
ending bound (to its original defaulted value) rather than absent. -/
theorem c10_toggle_involution (m : List (String × Bool)) (x : String) :
    lookupStatus (handleToggleMedication m x) x =
      some (!((lookupStatus m x).getD false)) ∧
    (∀ y, y ≠ x → lookupStatus (handleToggleMedication m x) y = lookupStatus m y) ∧
    (∀ y, (lookupStatus (handleToggleMedication (handleToggleMedication m x) x) y).getD false =
      (lookupStatus m y).getD false) ∧
    lookupStatus (handleToggleMedication (handleToggleMedication m x) x) x =
      some ((lookupStatus m x).getD false) := by
  refine ⟨?_, ?_, ?_, ?_⟩
  · rw [lookupStatus_toggle]
    simp
  · intro y hy
    rw [lookupStatus_toggle, if_neg hy]
  · intro y
    by_cases hy : y = x
    · subst hy
      simp [lookupStatus_toggle]
    · simp [lookupStatus_toggle, hy]
  · simp [lookupStatus_toggle]

/-- Witness for C10 at a concrete input: toggling the absent id t4 on
`{a: true}` binds t4 to true and keeps a; a second toggle leaves t4 bound to
false. -/
theorem c10_toggle_involution_witness :
    lookupStatus (handleToggleMedication [("a", true)] "t4") "t4" = some true ∧
    lookupStatus (handleToggleMedication [("a", true)] "t4") "a" = some true ∧
    lookupStatus (handleToggleMedication
      (handleToggleMedication [("a", true)] "t4") "t4") "t4" = some false := by
  have h := c10_toggle_involution [("a", true)] "t4"
  exact ⟨h.1.trans (by decide), (h.2.1 "a" (by decide)).trans (by decide),
    h.2.2.2.trans (by decide)⟩

end SeguimientoTiti
